import Mathlib

/-!
Verification of the natural-language specification of
tdw_physics/rigidbodies_dataset.py against a shallow embedding of its code.

Conventions of the embedding:
* Python floats are modelled as rationals (positions, masses, frictions,
  bounciness) except where the code performs square roots (force
  normalization), which is modelled over the reals.
* The mutable dataset object is modelled as an explicit state record
  (DatasetState) threaded through the operations.
* Python exceptions are modelled with Option / Except; an Except error
  carries the state at the moment the exception is raised.
* Randomness (random.shuffle, random.randint, random.uniform) is modelled
  by explicit parameters, constrained in theorems exactly by the
  documented semantics of those library calls.
-/

namespace TdwPhysics

/-- A 3-component vector of rationals (positions, rotations, velocities). -/
abbrev Vec3 : Type := ℚ × ℚ × ℚ

/-- A model metadata record (tdw.librarian.ModelRecord), reduced to its name:
no field other than identity is inspected by the code under study. -/
structure ModelRecord where
  name : String
deriving DecidableEq

/-- PhysicsInfo (rigidbodies_dataset.py lines 16-35): physics info for an
object. -/
structure PhysicsInfo where
  record : ModelRecord
  mass : ℚ
  dynamic_friction : ℚ
  static_friction : ℚ
  bounciness : ℚ
deriving DecidableEq

/-- The engine commands built by the code under study.  The apply-force
command carries the real-valued force vector computed by
get_falling_commands. -/
inductive Command where
  | addObject (o_id : Int) (record : ModelRecord) (position rotation : Vec3)
  | setMass (id : Int) (mass : ℚ)
  | setPhysicMaterial (id : Int) (dynamic_friction static_friction bounciness : ℚ)
  | applyForceToObject (force : ℝ × ℝ × ℝ) (id : Int)

/-- First-match lookup in an association list: Python dict indexing
(d[k], raising KeyError modelled as none). -/
def dictGet (d : List (Int × PhysicsInfo)) (k : Int) : Option PhysicsInfo :=
  match d with
  | [] => none
  | (k', v) :: rest => if k' = k then some v else dictGet rest k

/-- Python dict assignment d[k] = v: replaces the value in place if the key
is present (keeping insertion order), appends otherwise. -/
def dictInsert (d : List (Int × PhysicsInfo)) (k : Int) (v : PhysicsInfo) :
    List (Int × PhysicsInfo) :=
  match d with
  | [] => [(k, v)]
  | (k', v') :: rest => if k' = k then (k, v) :: rest else (k', v') :: dictInsert rest k v

/-- The mutable state of a RigidbodiesDataset instance that the claims are
about: the four per-episode static arrays (lines 78-81) and the per-object
physics info dict (line 73). -/
structure DatasetState where
  masses : List ℚ
  static_frictions : List ℚ
  dynamic_frictions : List ℚ
  bouncinesses : List ℚ
  physics_info : List (Int × PhysicsInfo)

/-- clear_static_data (lines 75-81): resets the four static arrays to empty.
physics_info is not touched by this method in the source. -/
def clear_static_data (s : DatasetState) : DatasetState :=
  { s with
    masses := []
    static_frictions := []
    dynamic_frictions := []
    bouncinesses := [] }

/-- Modelled from the spec: add_transforms_object belongs to the base
trajectory-recording class (TransformsDataset), which is not among the
sources; per the spec the returned batch starts with the add-object command
for the given record, position, rotation and object id. -/
def add_transforms_object (o_id : Int) (record : ModelRecord)
    (position rotation : Vec3) : Command :=
  Command.addObject o_id record position rotation

/-- add_physics_object (lines 98-143).  freshId stands for the value
self.get_unique_id() would produce when o_id is None. -/
def add_physics_object (s : DatasetState) (record : ModelRecord)
    (position rotation : Vec3)
    (mass dynamic_friction static_friction bounciness : ℚ)
    (o_id : Option Int) (freshId : Int) : List Command × DatasetState :=
  -- if o_id is None: o_id = self.get_unique_id()
  let oId : Int := o_id.getD freshId
  let add_object := add_transforms_object oId record position rotation
  let s' : DatasetState :=
    { masses := s.masses ++ [mass]
      dynamic_frictions := s.dynamic_frictions ++ [dynamic_friction]
      static_frictions := s.static_frictions ++ [static_friction]
      bouncinesses := s.bouncinesses ++ [bounciness]
      physics_info := dictInsert s.physics_info oId
        ⟨record, mass, dynamic_friction, static_friction, bounciness⟩ }
  ([add_object,
    Command.setMass oId mass,
    Command.setPhysicMaterial oId dynamic_friction static_friction bounciness],
   s')

/-- add_physics_object_default (lines 145-161).  The module-level
PHYSICS_INFO dict is passed in as the registry parameter; the lookup
PHYSICS_INFO[name] is the first statement, so a missing key raises before
any mutation: the error value is the unchanged input state. -/
def add_physics_object_default (registry : String → Option PhysicsInfo)
    (s : DatasetState) (name : String) (position rotation : Vec3)
    (o_id : Option Int) (freshId : Int) :
    Except DatasetState (List Command × DatasetState) :=
  match registry name with
  | none => Except.error s
  | some info =>
      Except.ok (add_physics_object s info.record position rotation
        info.mass info.dynamic_friction info.static_friction info.bounciness
        o_id freshId)

/-- get_objects_by_mass (lines 163-170): ids of objects with recorded mass
strictly below the threshold, in dict insertion order. -/
def get_objects_by_mass (s : DatasetState) (mass : ℚ) : List Int :=
  s.physics_info.filterMap fun kv => if kv.2.mass < mass then some kv.1 else none

/-! ### The per-episode operation sequences used by claim C8 -/

/-- An operation of the episode recorder that touches the four static
arrays: the episode-reset clear, or one object addition. -/
inductive StaticOp where
  | clear
  | add (record : ModelRecord) (position rotation : Vec3)
      (mass dynamic_friction static_friction bounciness : ℚ)
      (o_id : Option Int) (freshId : Int)

/-- Apply one static-data operation to the state. -/
def applyStaticOp (s : DatasetState) : StaticOp → DatasetState
  | StaticOp.clear => clear_static_data s
  | StaticOp.add record position rotation mass df sf b o_id freshId =>
      (add_physics_object s record position rotation mass df sf b o_id freshId).2

/-- Run a sequence of static-data operations from the left. -/
def runStaticOps (s : DatasetState) (ops : List StaticOp) : DatasetState :=
  ops.foldl applyStaticOp s

/-- Number of additions after the most recent clear in the sequence, the
accumulator starting from n. -/
def addsAfter (n : Nat) : List StaticOp → Nat
  | [] => n
  | StaticOp.clear :: rest => addsAfter 0 rest
  | StaticOp.add _ _ _ _ _ _ _ _ _ :: rest => addsAfter (n + 1) rest

/-- Number of objects added since the last clear (all of them when the
sequence contains no clear). -/
def addsSinceLastClear (ops : List StaticOp) : Nat := addsAfter 0 ops

/-! ### Helper lemmas -/

theorem dictGet_mem (d : List (Int × PhysicsInfo)) (k : Int) (v : PhysicsInfo)
    (h : dictGet d k = some v) : (k, v) ∈ d := by
  induction d with
  | nil => simp [dictGet] at h
  | cons kv rest ih =>
    obtain ⟨k', v'⟩ := kv
    by_cases hk : k' = k
    · subst hk
      simp [dictGet] at h
      subst h
      exact List.mem_cons_self _ _
    · simp [dictGet, hk] at h
      exact List.mem_cons_of_mem _ (ih h)

theorem dictGet_eq_some_of_mem (d : List (Int × PhysicsInfo)) (k : Int)
    (v : PhysicsInfo) (hnd : (d.map Prod.fst).Nodup) (h : (k, v) ∈ d) :
    dictGet d k = some v := by
  induction d with
  | nil => simp at h
  | cons kv rest ih =>
    obtain ⟨k', v'⟩ := kv
    simp only [List.map_cons, List.nodup_cons] at hnd
    rcases List.mem_cons.mp h with h1 | h1
    · injection h1 with hk hv
      subst hk; subst hv
      simp [dictGet]
    · have hne : k' ≠ k := by
        intro hkk
        subst hkk
        exact hnd.1 (List.mem_map.mpr ⟨(k', v), h1, rfl⟩)
      simp [dictGet, hne]
      exact ih hnd.2 h1

theorem dictGet_isSome_of_mem_keys (d : List (Int × PhysicsInfo)) (k : Int)
    (h : ∃ v, (k, v) ∈ d) : ∃ v, dictGet d k = some v := by
  induction d with
  | nil => simp at h
  | cons kv rest ih =>
    obtain ⟨k', v'⟩ := kv
    by_cases hk : k' = k
    · subst hk
      exact ⟨v', by simp [dictGet]⟩
    · obtain ⟨v, hv⟩ := h
      rcases List.mem_cons.mp hv with h1 | h1
      · exact absurd (by injection h1 with hk2 _; exact hk2.symm) hk
      · obtain ⟨w, hw⟩ := ih ⟨v, h1⟩
        exact ⟨w, by simpa [dictGet, hk] using hw⟩

theorem mem_get_objects_by_mass (s : DatasetState) (m : ℚ) (o : Int) :
    o ∈ get_objects_by_mass s m ↔ ∃ kv ∈ s.physics_info, kv.1 = o ∧ kv.2.mass < m := by
  simp only [get_objects_by_mass, List.mem_filterMap]
  constructor
  · rintro ⟨kv, hkv, hif⟩
    by_cases h : kv.2.mass < m
    · simp [h] at hif
      exact ⟨kv, hkv, hif, h⟩
    · simp [h] at hif
  · rintro ⟨kv, hkv, rfl, h⟩
    exact ⟨kv, hkv, by simp [h]⟩

/-! ### Claims C4, C5, C6 -/

/-- Claim C4: every call to add_physics_object returns exactly the
three-command batch add-object, set-mass, set-physic-material in that
order, and appends exactly the four scalars passed in, one to each of the
episode's four static arrays. -/
theorem add_physics_object_batch_and_arrays (s : DatasetState)
    (record : ModelRecord) (position rotation : Vec3)
    (mass df sf b : ℚ) (o_id : Option Int) (freshId : Int) :
    (add_physics_object s record position rotation mass df sf b o_id freshId).1 =
      [add_transforms_object (o_id.getD freshId) record position rotation,
       Command.setMass (o_id.getD freshId) mass,
       Command.setPhysicMaterial (o_id.getD freshId) df sf b] ∧
    (add_physics_object s record position rotation mass df sf b o_id freshId).1.length = 3 ∧
    (add_physics_object s record position rotation mass df sf b o_id freshId).2.masses =
      s.masses ++ [mass] ∧
    (add_physics_object s record position rotation mass df sf b o_id freshId).2.dynamic_frictions =
      s.dynamic_frictions ++ [df] ∧
    (add_physics_object s record position rotation mass df sf b o_id freshId).2.static_frictions =
      s.static_frictions ++ [sf] ∧
    (add_physics_object s record position rotation mass df sf b o_id freshId).2.bouncinesses =
      s.bouncinesses ++ [b] := by
  refine ⟨rfl, rfl, rfl, rfl, rfl, rfl⟩

/-- Claim C5: for a model name present in the physics-info registry,
add_physics_object_default returns exactly the result (commands and
mutated state) of calling add_physics_object with the record, mass,
dynamic friction, static friction and bounciness resolved from the
registry entry. -/
theorem add_physics_object_default_refines (registry : String → Option PhysicsInfo)
    (s : DatasetState) (name : String) (position rotation : Vec3)
    (o_id : Option Int) (freshId : Int) (info : PhysicsInfo)
    (h : registry name = some info) :
    add_physics_object_default registry s name position rotation o_id freshId =
      Except.ok (add_physics_object s info.record position rotation
        info.mass info.dynamic_friction info.static_friction info.bounciness
        o_id freshId) := by
  simp [add_physics_object_default, h]

/-- Witness for claim C5, at the registry of the spec's example: one entry
for the name chair with mass 5, dynamic friction 3/10, static friction
4/10, bounciness 2/10. -/
theorem add_physics_object_default_refines_witness :
    add_physics_object_default
        (fun n => if n = "chair" then
          some ⟨⟨"chair_01"⟩, 5, 3/10, 4/10, 2/10⟩ else none)
        ⟨[], [], [], [], []⟩ "chair" (0, 0, 0) (0, 0, 0) none 11 =
      Except.ok (add_physics_object ⟨[], [], [], [], []⟩ ⟨"chair_01"⟩
        (0, 0, 0) (0, 0, 0) 5 (3/10) (4/10) (2/10) none 11) :=
  add_physics_object_default_refines _ _ _ _ _ _ _
    ⟨⟨"chair_01"⟩, 5, 3/10, 4/10, 2/10⟩ (by simp)

/-- Claim C6: add_physics_object_default fails with the missing-key error
exactly when the name is absent from the registry, and the error state is
the unchanged input state (the lookup precedes every mutation). -/
theorem add_physics_object_default_error_iff (registry : String → Option PhysicsInfo)
    (s : DatasetState) (name : String) (position rotation : Vec3)
    (o_id : Option Int) (freshId : Int) :
    (add_physics_object_default registry s name position rotation o_id freshId =
        Except.error s ↔ registry name = none) ∧
    (∀ s₀, add_physics_object_default registry s name position rotation o_id freshId =
        Except.error s₀ → s₀ = s) := by
  constructor
  · constructor
    · intro h
      cases hr : registry name with
      | none => rfl
      | some info => simp [add_physics_object_default, hr] at h
    · intro h
      simp [add_physics_object_default, h]
  · intro s₀ h
    cases hr : registry name with
    | none =>
      simp [add_physics_object_default, hr] at h
      exact h.symm
    | some info => simp [add_physics_object_default, hr] at h

/-- Witness for claim C6: with an empty registry the lookup of the name
chair fails and the state at the error is the input state. -/
theorem add_physics_object_default_error_iff_witness :
    add_physics_object_default (fun _ => none) ⟨[1], [], [], [], []⟩ "chair"
        (0, 0, 0) (0, 0, 0) none 11 =
      Except.error (⟨[1], [], [], [], []⟩ : DatasetState) :=
  (add_physics_object_default_error_iff (fun _ => none) ⟨[1], [], [], [], []⟩
    "chair" (0, 0, 0) (0, 0, 0) none 11).1.mpr rfl

/-! ### Claim C8 -/

theorem runStaticOps_lengths (ops : List StaticOp) :
    ∀ s : DatasetState,
      (runStaticOps s ops).masses.length = addsAfter s.masses.length ops ∧
      (runStaticOps s ops).static_frictions.length = addsAfter s.static_frictions.length ops ∧
      (runStaticOps s ops).dynamic_frictions.length = addsAfter s.dynamic_frictions.length ops ∧
      (runStaticOps s ops).bouncinesses.length = addsAfter s.bouncinesses.length ops := by
  induction ops with
  | nil => intro s; simp [runStaticOps, addsAfter]
  | cons op rest ih =>
    intro s
    cases op with
    | clear =>
      have h := ih (clear_static_data s)
      simpa [runStaticOps, addsAfter, clear_static_data, List.foldl_cons,
        applyStaticOp] using h
    | add record position rotation mass df sf b o_id freshId =>
      have h := ih ((add_physics_object s record position rotation mass df sf b o_id freshId).2)
      simpa [runStaticOps, addsAfter, add_physics_object, List.foldl_cons,
        applyStaticOp] using h

/-- Claim C8: throughout an episode the four static arrays stay parallel:
after any sequence of operations from a cleared state, each has length
equal to the number of objects added since the last clear, and the
addition operation only appends (the previous contents are preserved and
one element holding the passed scalar is appended to each array). -/
theorem static_arrays_parallel_invariant (s : DatasetState) (ops : List StaticOp) :
    ((runStaticOps (clear_static_data s) ops).masses.length = addsSinceLastClear ops ∧
     (runStaticOps (clear_static_data s) ops).static_frictions.length = addsSinceLastClear ops ∧
     (runStaticOps (clear_static_data s) ops).dynamic_frictions.length = addsSinceLastClear ops ∧
     (runStaticOps (clear_static_data s) ops).bouncinesses.length = addsSinceLastClear ops) ∧
    (∀ (s' : DatasetState) (record : ModelRecord) (position rotation : Vec3)
        (mass df sf b : ℚ) (o_id : Option Int) (freshId : Int),
      applyStaticOp s' (StaticOp.add record position rotation mass df sf b o_id freshId) =
        { s' with
          masses := s'.masses ++ [mass]
          dynamic_frictions := s'.dynamic_frictions ++ [df]
          static_frictions := s'.static_frictions ++ [sf]
          bouncinesses := s'.bouncinesses ++ [b]
          physics_info := dictInsert s'.physics_info (o_id.getD freshId)
            ⟨record, mass, df, sf, b⟩ }) := by
  constructor
  · have h := runStaticOps_lengths ops (clear_static_data s)
    simpa [clear_static_data, addsSinceLastClear] using h
  · intro s' record position rotation mass df sf b o_id freshId
    rfl

/-! ### get_falling_commands (lines 172-202) -/

/-- force_dir (lines 191-192): a random vector with x and z drawn from
[-0.125, 0.125] and y from [0.7, 1], divided by its Euclidean norm
(np.linalg.norm). -/
noncomputable def force_dir (x y z : ℝ) : ℝ × ℝ × ℝ :=
  let n := Real.sqrt (x ^ 2 + y ^ 2 + z ^ 2)
  (x / n, y / n, z / n)

/-- The force vector emitted for one object (line 195): the normalized
direction scaled by the drawn magnitude u = random.uniform(min_force,
max_force). -/
noncomputable def falling_force (x y z u : ℝ) : ℝ × ℝ × ℝ :=
  ((force_dir x y z).1 * u, (force_dir x y z).2.1 * u, (force_dir x y z).2.2 * u)

/-- Euclidean norm of a 3-vector of reals. -/
noncomputable def norm3 (v : ℝ × ℝ × ℝ) : ℝ :=
  Real.sqrt (v.1 ^ 2 + v.2.1 ^ 2 + v.2.2 ^ 2)

/-- The random draws consumed by one iteration of the loop in
get_falling_commands: x, z from random.uniform(-0.125, 0.125), y from
random.uniform(0.7, 1), and the unit draw t behind
random.uniform(min_force, max_force) = min_force + (max_force - min_force) * t. -/
structure FallDraw where
  x : ℝ
  y : ℝ
  z : ℝ
  t : ℝ

/-- max_num_objects (line 184): the pool size capped at 8. -/
def fallingMaxNum (len : Nat) : Nat := if len < 8 then len else 8

/-- min_num_objects (lines 185-187): max_num_objects - 3, clamped to at
least 1. -/
def fallingMinNum (len : Nat) : Int :=
  if (fallingMaxNum len : Int) - 3 ≤ 0 then 1 else (fallingMaxNum len : Int) - 3

/-- The loop of get_falling_commands (lines 189-201): pops ids from the
front of the shuffled pool, emits one apply-force frame per object
followed by the empty frames appended by the inner loop
for j in range(10, 30).  A pop from an empty list (IndexError) or a
missing physics-info key (KeyError) is modelled as none. -/
noncomputable def fallingLoop (pinfo : List (Int × PhysicsInfo))
    (draws : Nat → FallDraw) : Nat → List Int → Nat → Option (List (List Command))
  | 0, _, _ => some []
  | Nat.succ k, ids, i =>
    match ids with
    | [] => none
    | o_id :: rest =>
      match dictGet pinfo o_id with
      | none => none
      | some inf =>
        let d := draws i
        let min_force : ℝ := (inf.mass : ℝ) * 2
        let max_force : ℝ := (inf.mass : ℝ) * 4
        let force := falling_force d.x d.y d.z
          (min_force + (max_force - min_force) * d.t)
        match fallingLoop pinfo draws k rest (i + 1) with
        | none => none
        | some later =>
          some (([Command.applyForceToObject force o_id] ::
            List.replicate (30 - 10) []) ++ later)

/-- get_falling_commands (lines 172-202).  The shuffle σ stands for
random.shuffle, the count for the value drawn by
random.randint(min_num_objects, max_num_objects); randint raising
ValueError on an empty range is modelled by the none branch. -/
noncomputable def get_falling_commands (s : DatasetState) (massThr : ℚ)
    (σ : List Int → List Int) (count : Nat) (draws : Nat → FallDraw) :
    Option (List (List Command)) :=
  let small_ids := σ (get_objects_by_mass s massThr)
  if fallingMinNum small_ids.length ≤ (fallingMaxNum small_ids.length : Int) then
    fallingLoop s.physics_info draws count small_ids 0
  else
    none

theorem fallingLoop_some_of_le (pinfo : List (Int × PhysicsInfo))
    (draws : Nat → FallDraw) :
    ∀ (c : Nat) (ids : List Int) (i : Nat), c ≤ ids.length →
      (∀ o ∈ ids, ∃ v, dictGet pinfo o = some v) →
      ∃ l, fallingLoop pinfo draws c ids i = some l ∧ l.length = c * 21 := by
  intro c
  induction c with
  | zero => intro ids i _ _; exact ⟨[], rfl, rfl⟩
  | succ k ih =>
    intro ids i hle hmem
    cases ids with
    | nil => simp at hle
    | cons o rest =>
      obtain ⟨v, hv⟩ := hmem o (List.mem_cons_self _ _)
      have hrest : ∀ o' ∈ rest, ∃ v', dictGet pinfo o' = some v' :=
        fun o' h => hmem o' (List.mem_cons_of_mem _ h)
      have hlen : k ≤ rest.length := by simpa using Nat.succ_le_succ_iff.mp hle
      obtain ⟨l, hl, hllen⟩ := ih rest (i + 1) hlen hrest
      refine ⟨([Command.applyForceToObject
          (falling_force (draws i).x (draws i).y (draws i).z
            (((v.mass : ℝ) * 2) + (((v.mass : ℝ) * 4) - ((v.mass : ℝ) * 2)) * (draws i).t)) o] ::
          List.replicate (30 - 10) []) ++ l, ?_, ?_⟩
      · rw [fallingLoop, hv, hl]
      · simp [hllen]
        omega

theorem fallingLoop_targets (pinfo : List (Int × PhysicsInfo))
    (draws : Nat → FallDraw) :
    ∀ (c : Nat) (ids : List Int) (i : Nat) (l : List (List Command)),
      fallingLoop pinfo draws c ids i = some l →
      ∀ frame ∈ l, ∀ cmd ∈ frame, ∀ (f : ℝ × ℝ × ℝ) (o : Int),
        cmd = Command.applyForceToObject f o → o ∈ ids := by
  intro c
  induction c with
  | zero =>
    intro ids i l hl frame hframe
    rw [fallingLoop] at hl
    injection hl with hl
    subst hl
    simp at hframe
  | succ k ih =>
    intro ids i l hl frame hframe cmd hcmd f o hco
    cases ids with
    | nil => rw [fallingLoop] at hl; exact absurd hl (by simp)
    | cons o' rest =>
      rw [fallingLoop] at hl
      cases hv : dictGet pinfo o' with
      | none => rw [hv] at hl; exact absurd hl (by simp)
      | some inf =>
        rw [hv] at hl
        cases hrec : fallingLoop pinfo draws k rest (i + 1) with
        | none => rw [hrec] at hl; exact absurd hl (by simp)
        | some later =>
          rw [hrec] at hl
          injection hl with hl
          subst hl
          rcases List.mem_append.mp hframe with h1 | h1
          · rcases List.mem_cons.mp h1 with h2 | h2
            · subst h2
              rcases List.mem_singleton.mp hcmd with rfl
              injection hco with _ ho
              exact ho ▸ List.mem_cons_self _ _
            · have : frame = [] := List.eq_of_mem_replicate h2
              subst this
              simp at hcmd
          · exact List.mem_cons_of_mem _ (ih rest (i + 1) later hrec frame h1 cmd hcmd f o hco)

/-! ### Claims C3, C9, C10 -/

/-- Claim C3: whenever at least one object with mass below the threshold
exists, get_falling_commands succeeds, selects between 1 and 8 objects
(the drawn count lying between the clamped lower bound and the pool size
capped at 8), and the returned sequence has total length equal to the
number of selected objects plus one run of 10-30 empty lists per selected
object. -/
theorem get_falling_commands_selection_bounds (s : DatasetState) (m : ℚ)
    (σ : List Int → List Int) (c : Nat) (draws : Nat → FallDraw)
    (hσ : ∀ l, List.Perm (σ l) l)
    (hne : get_objects_by_mass s m ≠ [])
    (hcmin : fallingMinNum (σ (get_objects_by_mass s m)).length ≤ (c : Int))
    (hcmax : c ≤ fallingMaxNum (σ (get_objects_by_mass s m)).length) :
    ∃ cmds, get_falling_commands s m σ c draws = some cmds ∧
      1 ≤ c ∧ c ≤ 8 ∧
      ∃ runs : List Nat, runs.length = c ∧ (∀ r ∈ runs, 10 ≤ r ∧ r ≤ 30) ∧
        cmds.length = c + runs.sum := by
  set pool := get_objects_by_mass s m with hpool
  have hlenperm : (σ pool).length = pool.length := (hσ pool).length_eq
  have hlen1 : 1 ≤ (σ pool).length := by
    rw [hlenperm]
    exact List.length_pos.mpr hne
  have hmax_le : fallingMaxNum (σ pool).length ≤ (σ pool).length := by
    unfold fallingMaxNum
    split <;> omega
  have hmax8 : fallingMaxNum (σ pool).length ≤ 8 := by
    unfold fallingMaxNum
    split <;> omega
  have hmin1 : 1 ≤ fallingMinNum (σ pool).length := by
    unfold fallingMinNum
    split <;> omega
  have hc1 : 1 ≤ c := by
    have : (1 : Int) ≤ (c : Int) := le_trans hmin1 hcmin
    exact_mod_cast this
  have hc8 : c ≤ 8 := le_trans hcmax hmax8
  have hcond : fallingMinNum (σ pool).length ≤ (fallingMaxNum (σ pool).length : Int) :=
    le_trans hcmin (by exact_mod_cast hcmax)
  have hmem : ∀ o ∈ σ pool, ∃ v, dictGet s.physics_info o = some v := by
    intro o ho
    have hop : o ∈ pool := (hσ pool).mem_iff.mp ho
    obtain ⟨kv, hkv, hk1, _⟩ := (mem_get_objects_by_mass s m o).mp hop
    exact dictGet_isSome_of_mem_keys s.physics_info o ⟨kv.2, by rw [← hk1]; exact hkv⟩
  obtain ⟨l, hl, hllen⟩ := fallingLoop_some_of_le s.physics_info draws c (σ pool) 0
    (le_trans hcmax hmax_le) hmem
  refine ⟨l, ?_, hc1, hc8, List.replicate c 20, by simp, ?_, ?_⟩
  · rw [get_falling_commands]
    simp only [← hpool, if_pos hcond]
    exact hl
  · intro r hr
    have := List.eq_of_mem_replicate hr
    omega
  · rw [hllen, List.sum_replicate, smul_eq_mul]
    omega

/-- Witness for claim C3: a single tracked object of mass 1 below the
threshold 3, identity shuffle, count 1. -/
theorem get_falling_commands_selection_bounds_witness :
    ∃ cmds, get_falling_commands
        ⟨[1], [1/2], [1/4], [0], [(5, ⟨⟨"cube"⟩, 1, 1/2, 1/4, 0⟩)]⟩ 3
        (fun l => l) 1 (fun _ => ⟨0, 1, 0, 0⟩) = some cmds ∧
      1 ≤ 1 ∧ 1 ≤ 8 ∧
      ∃ runs : List Nat, runs.length = 1 ∧ (∀ r ∈ runs, 10 ≤ r ∧ r ≤ 30) ∧
        cmds.length = 1 + runs.sum :=
  get_falling_commands_selection_bounds _ 3 _ 1 _
    (fun l => List.Perm.refl l) (by decide) (by decide) (by decide)

/-- Claim C9: get_objects_by_mass returns exactly the ids of objects whose
recorded mass is strictly below the threshold (an object whose mass equals
the threshold is never returned), and every apply-force command emitted by
get_falling_commands targets such an object. -/
theorem get_objects_by_mass_strict_and_forces (s : DatasetState) (m : ℚ)
    (hnd : (s.physics_info.map Prod.fst).Nodup) :
    (∀ o : Int, o ∈ get_objects_by_mass s m ↔
      ∃ inf, dictGet s.physics_info o = some inf ∧ inf.mass < m) ∧
    (∀ (o : Int) (inf : PhysicsInfo), dictGet s.physics_info o = some inf →
      inf.mass = m → o ∉ get_objects_by_mass s m) ∧
    (∀ (σ : List Int → List Int) (c : Nat) (draws : Nat → FallDraw)
        (cmds : List (List Command)),
      (∀ l, List.Perm (σ l) l) →
      get_falling_commands s m σ c draws = some cmds →
      ∀ frame ∈ cmds, ∀ cmd ∈ frame, ∀ (f : ℝ × ℝ × ℝ) (o : Int),
        cmd = Command.applyForceToObject f o →
        ∃ inf, dictGet s.physics_info o = some inf ∧ inf.mass < m) := by
  have hiff : ∀ o : Int, o ∈ get_objects_by_mass s m ↔
      ∃ inf, dictGet s.physics_info o = some inf ∧ inf.mass < m := by
    intro o
    rw [mem_get_objects_by_mass]
    constructor
    · rintro ⟨kv, hkv, rfl, hlt⟩
      exact ⟨kv.2, dictGet_eq_some_of_mem _ _ _ hnd hkv, hlt⟩
    · rintro ⟨inf, hget, hlt⟩
      exact ⟨(o, inf), dictGet_mem _ _ _ hget, rfl, hlt⟩
  refine ⟨hiff, ?_, ?_⟩
  · intro o inf hget heq hmem
    obtain ⟨inf', hget', hlt⟩ := (hiff o).mp hmem
    rw [hget] at hget'
    injection hget' with h
    subst h
    exact absurd hlt (by rw [heq]; exact lt_irrefl m)
  · intro σ c draws cmds hσ hcmds frame hframe cmd hcmd f o hco
    rw [get_falling_commands] at hcmds
    split at hcmds
    · have ho : o ∈ σ (get_objects_by_mass s m) :=
        fallingLoop_targets s.physics_info draws c _ 0 cmds hcmds frame hframe cmd hcmd f o hco
      exact (hiff o).mp ((hσ _).mem_iff.mp ho)
    · exact absurd hcmds (by simp)

/-- Witness for claim C9: a two-object dict, one of mass 1 (below the
threshold 3) and one of exactly mass 3. -/
theorem get_objects_by_mass_strict_and_forces_witness :
    (∀ o : Int, o ∈ get_objects_by_mass
        ⟨[1, 3], [1/2, 1/2], [1/4, 1/4], [0, 0],
         [(5, ⟨⟨"cube"⟩, 1, 1/2, 1/4, 0⟩), (6, ⟨⟨"ball"⟩, 3, 1/2, 1/4, 0⟩)]⟩ 3 ↔
      ∃ inf, dictGet [(5, ⟨⟨"cube"⟩, 1, 1/2, 1/4, 0⟩),
        (6, ⟨⟨"ball"⟩, 3, 1/2, 1/4, 0⟩)] o = some inf ∧ inf.mass < 3) ∧
    (∀ (o : Int) (inf : PhysicsInfo),
      dictGet [(5, ⟨⟨"cube"⟩, 1, 1/2, 1/4, 0⟩), (6, ⟨⟨"ball"⟩, 3, 1/2, 1/4, 0⟩)] o =
        some inf → inf.mass = 3 →
      o ∉ get_objects_by_mass
        ⟨[1, 3], [1/2, 1/2], [1/4, 1/4], [0, 0],
         [(5, ⟨⟨"cube"⟩, 1, 1/2, 1/4, 0⟩), (6, ⟨⟨"ball"⟩, 3, 1/2, 1/4, 0⟩)]⟩ 3) ∧
    (∀ (σ : List Int → List Int) (c : Nat) (draws : Nat → FallDraw)
        (cmds : List (List Command)),
      (∀ l, List.Perm (σ l) l) →
      get_falling_commands
        ⟨[1, 3], [1/2, 1/2], [1/4, 1/4], [0, 0],
         [(5, ⟨⟨"cube"⟩, 1, 1/2, 1/4, 0⟩), (6, ⟨⟨"ball"⟩, 3, 1/2, 1/4, 0⟩)]⟩ 3
        σ c draws = some cmds →
      ∀ frame ∈ cmds, ∀ cmd ∈ frame, ∀ (f : ℝ × ℝ × ℝ) (o : Int),
        cmd = Command.applyForceToObject f o →
        ∃ inf, dictGet [(5, ⟨⟨"cube"⟩, 1, 1/2, 1/4, 0⟩),
          (6, ⟨⟨"ball"⟩, 3, 1/2, 1/4, 0⟩)] o = some inf ∧ inf.mass < 3) :=
  get_objects_by_mass_strict_and_forces
    ⟨[1, 3], [1/2, 1/2], [1/4, 1/4], [0, 0],
     [(5, ⟨⟨"cube"⟩, 1, 1/2, 1/4, 0⟩), (6, ⟨⟨"ball"⟩, 3, 1/2, 1/4, 0⟩)]⟩ 3
    (by decide)

/-- Claim C10: when no tracked object has mass below the threshold,
get_falling_commands fails (random.randint is called on the empty range
with lower bound 1 and upper bound 0) instead of returning an empty
command sequence. -/
theorem get_falling_commands_empty_pool_error (s : DatasetState) (m : ℚ)
    (σ : List Int → List Int) (c : Nat) (draws : Nat → FallDraw)
    (hσ : ∀ l, List.Perm (σ l) l)
    (h : get_objects_by_mass s m = []) :
    get_falling_commands s m σ c draws = none ∧
    fallingMinNum (σ (get_objects_by_mass s m)).length = 1 ∧
    fallingMaxNum (σ (get_objects_by_mass s m)).length = 0 := by
  have hlen : (σ (get_objects_by_mass s m)).length = 0 := by
    rw [(hσ _).length_eq, h]
    rfl
  rw [get_falling_commands]
  simp only [hlen]
  refine ⟨?_, by decide, by decide⟩
  rw [if_neg (by decide)]

/-- Witness for claim C10: a single-object dict whose object's mass 4 is
not below the threshold 3. -/
theorem get_falling_commands_empty_pool_error_witness :
    get_falling_commands ⟨[4], [1/2], [1/4], [0], [(5, ⟨⟨"cube"⟩, 4, 1/2, 1/4, 0⟩)]⟩ 3
        (fun l => l) 2 (fun _ => ⟨0, 1, 0, 0⟩) = none ∧
    fallingMinNum ((fun (l : List Int) => l)
      (get_objects_by_mass ⟨[4], [1/2], [1/4], [0],
        [(5, ⟨⟨"cube"⟩, 4, 1/2, 1/4, 0⟩)]⟩ 3)).length = 1 ∧
    fallingMaxNum ((fun (l : List Int) => l)
      (get_objects_by_mass ⟨[4], [1/2], [1/4], [0],
        [(5, ⟨⟨"cube"⟩, 4, 1/2, 1/4, 0⟩)]⟩ 3)).length = 0 :=
  get_falling_commands_empty_pool_error _ 3 _ 2 _
    (fun l => List.Perm.refl l) (by decide)

/-! ### Claim C7 -/

/-- Claim C7: for draws in the documented ranges (x, z from
[-0.125, 0.125], y from [0.7, 1]) the direction vector is normalized to
unit length before scaling, and for a magnitude draw u in
[2 * mass, 4 * mass] (mass nonnegative) the emitted force has Euclidean
norm exactly u, hence lying in [2 * mass, 4 * mass]. -/
theorem falling_force_direction_and_magnitude (x y z u m : ℝ)
    (hx1 : -0.125 ≤ x) (hx2 : x ≤ 0.125)
    (hy1 : 0.7 ≤ y) (hy2 : y ≤ 1)
    (hz1 : -0.125 ≤ z) (hz2 : z ≤ 0.125)
    (hm : 0 ≤ m) (hu1 : 2 * m ≤ u) (hu2 : u ≤ 4 * m) :
    norm3 (force_dir x y z) = 1 ∧
    norm3 (falling_force x y z u) = u ∧
    2 * m ≤ norm3 (falling_force x y z u) ∧
    norm3 (falling_force x y z u) ≤ 4 * m := by
  have hS : 0 < x ^ 2 + y ^ 2 + z ^ 2 := by
    nlinarith [sq_nonneg x, sq_nonneg z, sq_nonneg (y - 0.7)]
  set n := Real.sqrt (x ^ 2 + y ^ 2 + z ^ 2) with hn
  have hnpos : 0 < n := Real.sqrt_pos.mpr hS
  have hnsq : n ^ 2 = x ^ 2 + y ^ 2 + z ^ 2 := Real.sq_sqrt hS.le
  have hdir : (x / n) ^ 2 + (y / n) ^ 2 + (z / n) ^ 2 = 1 := by
    field_simp
    linarith [hnsq]
  have hdir1 : norm3 (force_dir x y z) = 1 := by
    rw [norm3, force_dir]
    simp only [← hn]
    rw [hdir, Real.sqrt_one]
  have hu0 : 0 ≤ u := le_trans (by linarith) hu1
  have hforce : norm3 (falling_force x y z u) = u := by
    rw [norm3, falling_force, force_dir]
    simp only [← hn]
    have hsum : (x / n * u) ^ 2 + (y / n * u) ^ 2 + (z / n * u) ^ 2 = u ^ 2 := by
      have : (x / n * u) ^ 2 + (y / n * u) ^ 2 + (z / n * u) ^ 2 =
          ((x / n) ^ 2 + (y / n) ^ 2 + (z / n) ^ 2) * u ^ 2 := by ring
      rw [this, hdir, one_mul]
    rw [hsum, Real.sqrt_sq hu0]
  exact ⟨hdir1, hforce, by rw [hforce]; exact hu1, by rw [hforce]; exact hu2⟩

/-- Witness for claim C7: draws x = 0, y = 1, z = 0, mass 1, magnitude 2. -/
theorem falling_force_direction_and_magnitude_witness :
    norm3 (force_dir 0 1 0) = 1 ∧
    norm3 (falling_force 0 1 0 2) = 2 ∧
    2 * 1 ≤ norm3 (falling_force 0 1 0 2) ∧
    norm3 (falling_force 0 1 0 2) ≤ 4 * 1 :=
  falling_force_direction_and_magnitude 0 1 0 2 1
    (by norm_num) (by norm_num) (by norm_num) (by norm_num)
    (by norm_num) (by norm_num) (by norm_num) (by norm_num) (by norm_num)

/-! ### _write_frame (lines 223-279): episode-done flag and collision arrays -/

/-- One record of a Rigidbodies output message: object id, velocity,
angular velocity and the sleeping flag. -/
structure RigiEntry where
  id : Int
  velocity : Vec3
  angular_velocity : Vec3
  sleeping : Bool

/-- One object-object Collision output message: collider and collidee ids,
relative velocity, and the list of (contact normal, contact point) pairs. -/
structure CollEvent where
  collider_id : Int
  collidee_id : Int
  relative_velocity : Vec3
  contacts : List (Vec3 × Vec3)

/-- One EnvironmentCollision output message: object id and the list of
(contact normal, contact point) pairs. -/
structure EnvCollEvent where
  object_id : Int
  contacts : List (Vec3 × Vec3)

/-- An element of the response list passed to _write_frame, discriminated
by OutputData.get_data_type_id; unknown message kinds are the other
constructor. -/
inductive OutputMsg where
  | rigi (entries : List RigiEntry)
  | coll (event : CollEvent)
  | enco (event : EnvCollEvent)
  | other

/-- The body of the r_id == rigi branch acting on the sleeping flag
(lines 245-250): for each reported object, if it is not sleeping and its
last known y-position (from the transforms dict tr) is at least -1, the
flag is set to False. -/
def sleepCheck (tr : Int → Vec3) (sleeping : Bool) (m : OutputMsg) : Bool :=
  match m with
  | OutputMsg.rigi entries =>
      entries.foldl
        (fun sleeping e =>
          if !e.sleeping && decide (-1 ≤ (tr e.id).2.1) then false else sleeping)
        sleeping
  | _ => sleeping

/-- The episode-done boolean computed by _write_frame (lines 238-250 and
279): sleeping starts True and the loop over resp with the last element
dropped (resp with index up to -1) may only clear it. -/
def frameSleeping (tr : Int → Vec3) (resp : List OutputMsg) : Bool :=
  resp.dropLast.foldl (sleepCheck tr) true

/-- An object was reported asleep in this frame's rigid-body output:
some Rigidbodies message in the scanned part of the response holds an
entry for it with the sleeping flag set. -/
def reportedAsleep (resp : List OutputMsg) (o : Int) : Bool :=
  resp.dropLast.any fun m =>
    match m with
    | OutputMsg.rigi entries => entries.any fun e => e.id == o && e.sleeping
    | _ => false

/-- A Rigidbodies message leaves the sleeping flag set iff each of its
entries is sleeping or below the abyss threshold. -/
def msgSleepOk (tr : Int → Vec3) (m : OutputMsg) : Bool :=
  match m with
  | OutputMsg.rigi entries =>
      entries.all fun e => !(!e.sleeping && decide (-1 ≤ (tr e.id).2.1))
  | _ => true

/-- The entry lists of the Rigidbodies messages of a response. -/
def rigiEntries : OutputMsg → Option (List RigiEntry)
  | OutputMsg.rigi entries => some entries
  | _ => none

theorem foldl_sleepFlag {α : Type} (p : α → Bool) :
    ∀ (l : List α) (s : Bool),
      l.foldl (fun b e => if p e then false else b) s = (s && l.all fun e => !p e) := by
  intro l
  induction l with
  | nil => intro s; simp
  | cons a t ih =>
    intro s
    rw [List.foldl_cons, ih, List.all_cons]
    by_cases h : p a <;> simp [h]

theorem sleepCheck_eq (tr : Int → Vec3) (s : Bool) (m : OutputMsg) :
    sleepCheck tr s m = (s && msgSleepOk tr m) := by
  cases m with
  | rigi entries =>
    rw [sleepCheck, msgSleepOk]
    exact foldl_sleepFlag _ entries s
  | coll e => simp [sleepCheck, msgSleepOk]
  | enco e => simp [sleepCheck, msgSleepOk]
  | other => simp [sleepCheck, msgSleepOk]

theorem foldl_sleepCheck (tr : Int → Vec3) :
    ∀ (l : List OutputMsg) (s : Bool),
      l.foldl (sleepCheck tr) s = (s && l.all (msgSleepOk tr)) := by
  intro l
  induction l with
  | nil => intro s; simp
  | cons m t ih =>
    intro s
    rw [List.foldl_cons, ih, sleepCheck_eq, List.all_cons, Bool.and_assoc]

theorem frameSleeping_eq_all (tr : Int → Vec3) (resp : List OutputMsg) :
    frameSleeping tr resp = resp.dropLast.all (msgSleepOk tr) := by
  rw [frameSleeping, foldl_sleepCheck, Bool.true_and]

theorem all_msgSleepOk_eq (tr : Int → Vec3) :
    ∀ l : List OutputMsg,
      l.all (msgSleepOk tr) =
        (l.filterMap rigiEntries).all fun es =>
          es.all fun e => !(!e.sleeping && decide (-1 ≤ (tr e.id).2.1)) := by
  intro l
  induction l with
  | nil => rfl
  | cons m t ih =>
    cases m with
    | rigi entries => simp [List.all_cons, rigiEntries, msgSleepOk, ih]
    | coll e => simp [List.all_cons, rigiEntries, msgSleepOk, ih]
    | enco e => simp [List.all_cons, rigiEntries, msgSleepOk, ih]
    | other => simp [List.all_cons, rigiEntries, msgSleepOk, ih]

theorem any_reported_eq (o : Int) :
    ∀ l : List OutputMsg,
      (l.any fun m =>
        match m with
        | OutputMsg.rigi entries => entries.any fun e => e.id == o && e.sleeping
        | _ => false) =
      (l.filterMap rigiEntries).any fun es => es.any fun e => e.id == o && e.sleeping := by
  intro l
  induction l with
  | nil => rfl
  | cons m t ih =>
    cases m with
    | rigi entries => simp [List.any_cons, rigiEntries, ih]
    | coll e => simp [List.any_cons, rigiEntries, ih]
    | enco e => simp [List.any_cons, rigiEntries, ih]
    | other => simp [List.any_cons, rigiEntries, ih]

/-- Claim C1: for a frame response whose scanned part carries exactly one
rigid-body message, reporting each tracked object exactly once, the
episode-done boolean computed by _write_frame is true iff every tracked
object whose last known y-position is at least -1 was reported asleep in
that message (objects with y-position below -1 are ignored). -/
theorem frameSleeping_iff_nonabyss_asleep (tr : Int → Vec3)
    (resp : List OutputMsg) (object_ids : List Int) (es : List RigiEntry)
    (H1 : resp.dropLast.filterMap rigiEntries = [es])
    (H2 : (es.map RigiEntry.id).Nodup)
    (H3 : ∀ o : Int, o ∈ object_ids ↔ o ∈ es.map RigiEntry.id) :
    frameSleeping tr resp = true ↔
      ∀ o ∈ object_ids, -1 ≤ (tr o).2.1 → reportedAsleep resp o = true := by
  have hrep : ∀ o : Int, reportedAsleep resp o =
      es.any fun e => e.id == o && e.sleeping := by
    intro o
    rw [reportedAsleep, any_reported_eq, H1]
    simp
  rw [frameSleeping_eq_all, all_msgSleepOk_eq, H1]
  simp only [List.all_cons, List.all_nil, Bool.and_true, hrep]
  rw [List.all_eq_true]
  constructor
  · intro h o ho hy
    obtain ⟨e, he, heid⟩ := List.mem_map.mp ((H3 o).mp ho)
    have := h e he
    rw [Bool.not_eq_eq_eq_not, Bool.not_true, Bool.and_eq_false_iff] at this
    rcases this with h1 | h1
    · rw [List.any_eq_true]
      refine ⟨e, he, ?_⟩
      rw [Bool.and_eq_true, beq_iff_eq]
      exact ⟨heid, by simpa using h1⟩
    · rw [decide_eq_false_iff_not] at h1
      rw [heid] at h1
      exact absurd hy h1
  · intro h e he
    rw [Bool.not_eq_eq_eq_not, Bool.not_true, Bool.and_eq_false_iff]
    by_cases hsl : e.sleeping
    · left
      simp [hsl]
    · right
      rw [decide_eq_false_iff_not]
      intro hy
      have hid : e.id ∈ object_ids :=
        (H3 e.id).mpr (List.mem_map.mpr ⟨e, he, rfl⟩)
      have := h e.id hid hy
      rw [List.any_eq_true] at this
      obtain ⟨e', he', hcond⟩ := this
      rw [Bool.and_eq_true, beq_iff_eq] at hcond
      have : e' = e := List.inj_on_of_nodup_map H2 he' he hcond.1
      rw [this] at hcond
      exact hsl (by rw [hcond.2])

/-- Witness for claim C1: one tracked object with id 7, reported asleep at
y-position 0, response ending in an unrelated marker message. -/
theorem frameSleeping_iff_nonabyss_asleep_witness :
    frameSleeping (fun _ => (0, 0, 0))
        [OutputMsg.rigi [⟨7, (0, 0, 0), (0, 0, 0), true⟩], OutputMsg.other] = true ↔
      ∀ o ∈ [(7 : Int)], -1 ≤ ((fun (_ : Int) => ((0 : ℚ), (0 : ℚ), (0 : ℚ))) o).2.1 →
        reportedAsleep
          [OutputMsg.rigi [⟨7, (0, 0, 0), (0, 0, 0), true⟩], OutputMsg.other] o = true :=
  frameSleeping_iff_nonabyss_asleep _ _ [7] [⟨7, (0, 0, 0), (0, 0, 0), true⟩]
    rfl (by simp) (fun o => Iff.rfl)

/-! ### Claim C2: collision array accumulation in _write_frame -/

/-- The six floats appended per contact (lines 259-261 and 265-267):
np.append flattens the (normal, point) pair of 3-vectors. -/
def contact_floats : List (Vec3 × Vec3) → List ℚ
  | [] => []
  | (n, p) :: rest =>
      n.1 :: n.2.1 :: n.2.2 :: p.1 :: p.2.1 :: p.2.2 :: contact_floats rest

/-- collision_ids (lines 231 and 257): each Collision message appends its
collider id and collidee id to the flat array. -/
def collision_ids : List OutputMsg → List Int
  | [] => []
  | OutputMsg.rigi _ :: rest => collision_ids rest
  | OutputMsg.coll c :: rest => c.collider_id :: c.collidee_id :: collision_ids rest
  | OutputMsg.enco _ :: rest => collision_ids rest
  | OutputMsg.other :: rest => collision_ids rest

/-- collision_relative_velocities (lines 232 and 258): three components
appended per Collision message. -/
def collision_relative_velocities : List OutputMsg → List ℚ
  | [] => []
  | OutputMsg.rigi _ :: rest => collision_relative_velocities rest
  | OutputMsg.coll c :: rest =>
      c.relative_velocity.1 :: c.relative_velocity.2.1 :: c.relative_velocity.2.2 ::
        collision_relative_velocities rest
  | OutputMsg.enco _ :: rest => collision_relative_velocities rest
  | OutputMsg.other :: rest => collision_relative_velocities rest

/-- collision_contacts (lines 233 and 259-261): six floats appended per
contact of each Collision message. -/
def collision_contacts : List OutputMsg → List ℚ
  | [] => []
  | OutputMsg.rigi _ :: rest => collision_contacts rest
  | OutputMsg.coll c :: rest => contact_floats c.contacts ++ collision_contacts rest
  | OutputMsg.enco _ :: rest => collision_contacts rest
  | OutputMsg.other :: rest => collision_contacts rest

/-- env_collision_ids (lines 235 and 264): one object id appended per
EnvironmentCollision message. -/
def env_collision_ids : List OutputMsg → List Int
  | [] => []
  | OutputMsg.rigi _ :: rest => env_collision_ids rest
  | OutputMsg.coll _ :: rest => env_collision_ids rest
  | OutputMsg.enco e :: rest => e.object_id :: env_collision_ids rest
  | OutputMsg.other :: rest => env_collision_ids rest

/-- env_collision_contacts (lines 236 and 265-267): six floats appended
per contact of each EnvironmentCollision message. -/
def env_collision_contacts : List OutputMsg → List ℚ
  | [] => []
  | OutputMsg.rigi _ :: rest => env_collision_contacts rest
  | OutputMsg.coll _ :: rest => env_collision_contacts rest
  | OutputMsg.enco e :: rest => contact_floats e.contacts ++ env_collision_contacts rest
  | OutputMsg.other :: rest => env_collision_contacts rest

/-- The number of object-object collision events in the scanned messages. -/
def numCollisions : List OutputMsg → Nat
  | [] => 0
  | OutputMsg.coll _ :: rest => numCollisions rest + 1
  | _ :: rest => numCollisions rest

/-- The number of environment-collision events in the scanned messages. -/
def numEnvCollisions : List OutputMsg → Nat
  | [] => 0
  | OutputMsg.enco _ :: rest => numEnvCollisions rest + 1
  | _ :: rest => numEnvCollisions rest

/-- The total number of contact points over all object-object collision
events in the scanned messages. -/
def totalCollisionContacts : List OutputMsg → Nat
  | [] => 0
  | OutputMsg.coll c :: rest => c.contacts.length + totalCollisionContacts rest
  | _ :: rest => totalCollisionContacts rest

/-- The total number of contact points over all environment-collision
events in the scanned messages. -/
def totalEnvContacts : List OutputMsg → Nat
  | [] => 0
  | OutputMsg.enco e :: rest => e.contacts.length + totalEnvContacts rest
  | _ :: rest => totalEnvContacts rest

theorem contact_floats_length (cs : List (Vec3 × Vec3)) :
    (contact_floats cs).length = cs.length * 6 := by
  induction cs with
  | nil => rfl
  | cons c rest ih =>
    obtain ⟨n, p⟩ := c
    simp [contact_floats, ih]
    omega

/-- Counterexample for claim C2: a frame with a single object-object
collision event carrying two contact points produces a contacts array of
12 floats, which cannot reshape to the claimed (N, 2, 3) = (1, 2, 3)
shape of 6 entries; likewise for a single environment-collision event
with two contacts. -/
theorem collision_contacts_not_event_shaped :
    (collision_contacts
        ([OutputMsg.coll ⟨1, 2, (0, 0, 0), [((0, 0, 0), (0, 0, 0)), ((0, 0, 0), (0, 0, 0))]⟩,
          OutputMsg.other] : List OutputMsg).dropLast).length ≠
      numCollisions
        ([OutputMsg.coll ⟨1, 2, (0, 0, 0), [((0, 0, 0), (0, 0, 0)), ((0, 0, 0), (0, 0, 0))]⟩,
          OutputMsg.other] : List OutputMsg).dropLast * (2 * 3) ∧
    (env_collision_contacts
        ([OutputMsg.enco ⟨1, [((0, 0, 0), (0, 0, 0)), ((0, 0, 0), (0, 0, 0))]⟩,
          OutputMsg.other] : List OutputMsg).dropLast).length ≠
      numEnvCollisions
        ([OutputMsg.enco ⟨1, [((0, 0, 0), (0, 0, 0)), ((0, 0, 0), (0, 0, 0))]⟩,
          OutputMsg.other] : List OutputMsg).dropLast * (2 * 3) := by
  constructor <;> decide

/-- Claim C2 as amended: for a frame with N object-object and M
environment collision events, the id array has length 2N (reshaping
cleanly to (N, 2)), the relative-velocity array 3N (to (N, 3)) and the
environment id array M (to (M, 1)); the contact arrays have lengths 6C
and 6E where C and E are the total contact-point counts over those
events, so they reshape cleanly to (C, 2, 3) and (E, 2, 3) - the leading
dimension is the contact count, which equals the event count only when
every event carries exactly one contact. -/
theorem collision_array_lengths (resp : List OutputMsg) :
    (collision_ids resp.dropLast).length = numCollisions resp.dropLast * 2 ∧
    (collision_relative_velocities resp.dropLast).length = numCollisions resp.dropLast * 3 ∧
    (collision_contacts resp.dropLast).length = totalCollisionContacts resp.dropLast * (2 * 3) ∧
    (env_collision_ids resp.dropLast).length = numEnvCollisions resp.dropLast * 1 ∧
    (env_collision_contacts resp.dropLast).length = totalEnvContacts resp.dropLast * (2 * 3) := by
  set l := resp.dropLast with hl
  clear hl
  induction l with
  | nil => exact ⟨rfl, rfl, rfl, rfl, rfl⟩
  | cons m t ih =>
    obtain ⟨ih1, ih2, ih3, ih4, ih5⟩ := ih
    cases m with
    | rigi entries =>
      exact ⟨by simpa [collision_ids, numCollisions] using ih1,
        by simpa [collision_relative_velocities, numCollisions] using ih2,
        by simpa [collision_contacts, totalCollisionContacts] using ih3,
        by simpa [env_collision_ids, numEnvCollisions] using ih4,
        by simpa [env_collision_contacts, totalEnvContacts] using ih5⟩
    | coll c =>
      refine ⟨?_, ?_, ?_, ?_, ?_⟩
      · simp [collision_ids, numCollisions, ih1]; omega
      · simp [collision_relative_velocities, numCollisions, ih2]; omega
      · simp [collision_contacts, totalCollisionContacts, ih3, contact_floats_length]
        omega
      · simpa [env_collision_ids, numEnvCollisions] using ih4
      · simpa [env_collision_contacts, totalEnvContacts] using ih5
    | enco e =>
      refine ⟨?_, ?_, ?_, ?_, ?_⟩
      · simpa [collision_ids, numCollisions] using ih1
      · simpa [collision_relative_velocities, numCollisions] using ih2
      · simpa [collision_contacts, totalCollisionContacts] using ih3
      · simp [env_collision_ids, numEnvCollisions, ih4]
      · simp [env_collision_contacts, totalEnvContacts, ih5, contact_floats_length]
        omega
    | other =>
      exact ⟨by simpa [collision_ids, numCollisions] using ih1,
        by simpa [collision_relative_velocities, numCollisions] using ih2,
        by simpa [collision_contacts, totalCollisionContacts] using ih3,
        by simpa [env_collision_ids, numEnvCollisions] using ih4,
        by simpa [env_collision_contacts, totalEnvContacts] using ih5⟩

end TdwPhysics
